import Mathlib

/-!
Verification of the session & rate-governance core of a Telegram/Gemini
conversational relay (src/main.py), as a shallow embedding in Lean.

Modelling conventions:
* Calendar dates are natural numbers (`date.today()` becomes a `today : Nat`
  parameter; the code only ever compares dates for equality).
* Chat ids are integers, as in Telegram.
* The in-memory dictionaries `user_limits` and `user_chats` are total
  functions `Int → Option _` (absent key = `none`).
* Wall-clock times for the upstream throttle are naturals counted in tenths
  of a second, so that `MIN_DELAY = 0.5` seconds is the natural number 5
  (the code never does float arithmetic beyond subtraction/comparison).
* Async transport sends (`message.answer`, `send_chat_action`) are modelled
  as collected output (the `replies` field) in the dispatcher; chunk-level
  send failure, which the code localises in `safe_send_message`, is
  verified separately with explicit success oracles for the two parse
  modes.
-/

/-- Pointwise update of an in-memory dictionary, modelling `d[k] = v`
(`v = none` models `del d[k]`). -/
def updMap {α : Type} (m : Int → Option α) (k : Int) (v : Option α) : Int → Option α :=
  fun q => if q = k then v else m q

theorem updMap_same {α : Type} (m : Int → Option α) (k : Int) (v : Option α) :
    updMap m k v k = v := by
  simp [updMap]

theorem updMap_other {α : Type} (m : Int → Option α) (k : Int) (v : Option α)
    (q : Int) (h : q ≠ k) : updMap m k v q = m q := by
  simp [updMap, h]

/-- One entry of `user_limits`: `{"date": date, "count": int}`. -/
structure LimitInfo where
  date : Nat
  count : Nat
deriving DecidableEq

/-- The `user_limits` dictionary: `{chat_id: {"date": date, "count": int}}`. -/
abbrev LimitMap := Int → Option LimitInfo

/-- The hardcoded daily cap from main.py: `MAX_MESSAGES_PER_DAY = 30`. -/
def MAX_MESSAGES_PER_DAY : Nat := 30

/-- Embedding of `check_user_limit(chat_id)`.  The global dictionary and the
current date are passed explicitly; the call both returns the admission
verdict and (on a fresh user or a date rollover) writes the reset record,
exactly as the Python function mutates `user_limits`. -/
def check_user_limit (limits : LimitMap) (today : Nat) (chatId : Int) (cap : Nat) :
    Bool × LimitMap :=
  match limits chatId with
  | none => (true, updMap limits chatId (some ⟨today, 0⟩))
  | some info =>
    if info.date ≠ today then
      (true, updMap limits chatId (some ⟨today, 0⟩))
    else
      (decide (info.count < cap), limits)

/-- Embedding of `inc_user_limit(chat_id)` (the Python in-place
`info["count"] += 1` keeps the stored date, which in that branch equals
`today`). -/
def inc_user_limit (limits : LimitMap) (today : Nat) (chatId : Int) : LimitMap :=
  match limits chatId with
  | none => updMap limits chatId (some ⟨today, 1⟩)
  | some info =>
    if info.date ≠ today then
      updMap limits chatId (some ⟨today, 1⟩)
    else
      updMap limits chatId (some ⟨info.date, info.count + 1⟩)

/-- The limiter state a user presents at the start of a fresh day: either no
record at all, or a record whose stored date is not `today`. -/
def freshFor (limits : LimitMap) (chatId : Int) (today : Nat) : Prop :=
  limits chatId = none ∨ ∃ info, limits chatId = some info ∧ info.date ≠ today

theorem check_user_limit_fresh (limits : LimitMap) (today : Nat) (chatId : Int)
    (cap : Nat) (h : freshFor limits chatId today) :
    check_user_limit limits today chatId cap =
      (true, updMap limits chatId (some ⟨today, 0⟩)) := by
  rcases h with h | ⟨info, hinfo, hdate⟩
  · simp [check_user_limit, h]
  · simp [check_user_limit, hinfo, hdate]

theorem check_user_limit_today (limits : LimitMap) (today : Nat) (chatId : Int)
    (cap : Nat) (info : LimitInfo) (h : limits chatId = some info)
    (hdate : info.date = today) :
    check_user_limit limits today chatId cap = (decide (info.count < cap), limits) := by
  simp [check_user_limit, h, hdate]

theorem inc_user_limit_today (limits : LimitMap) (today : Nat) (chatId : Int)
    (k : Nat) (h : limits chatId = some ⟨today, k⟩) :
    inc_user_limit limits today chatId = updMap limits chatId (some ⟨today, k + 1⟩) := by
  simp [inc_user_limit, h]

/-- Embedding of the list comprehension in `split_text`:
`[text[i:i + max_length] for i in range(0, len(text), max_length)]`
slices off `max_length` characters at a time, which is the recursion
`take m :: split (drop m)`; the list length is ample fuel since every
step with `0 < m` consumes at least one character. -/
def splitPieces (m : Nat) : Nat → List Char → List (List Char)
  | _, [] => []
  | 0, l => [l]
  | fuel + 1, l => l.take m :: splitPieces m fuel (l.drop m)

/-- Embedding of `split_text(text, max_length=4000)`; call sites pass 4000. -/
def split_text (text : List Char) (max_length : Nat) : List (List Char) :=
  splitPieces max_length text.length text

theorem splitPieces_nil (m fuel : Nat) : splitPieces m fuel [] = [] := by
  cases fuel <;> rfl

theorem split_text_nil (m : Nat) : split_text [] m = [] := rfl

theorem splitPieces_fuel (m : Nat) (hm : 0 < m) :
    ∀ f1 f2 l, l.length ≤ f1 → l.length ≤ f2 →
      splitPieces m f1 l = splitPieces m f2 l := by
  intro f1
  induction f1 with
  | zero =>
    intro f2 l h1 _
    have : l = [] := by
      cases l with
      | nil => rfl
      | cons a t => simp at h1
    subst this
    simp [splitPieces_nil]
  | succ f ih =>
    intro f2 l h1 h2
    cases l with
    | nil => simp [splitPieces_nil]
    | cons a t =>
      cases f2 with
      | zero => simp at h2
      | succ g =>
        show (a :: t).take m :: splitPieces m f ((a :: t).drop m)
          = (a :: t).take m :: splitPieces m g ((a :: t).drop m)
        have hlen : ((a :: t).drop m).length ≤ f := by
          simp only [List.length_drop, List.length_cons] at *
          omega
        have hlen2 : ((a :: t).drop m).length ≤ g := by
          simp only [List.length_drop, List.length_cons] at *
          omega
        rw [ih _ _ hlen hlen2]

theorem split_text_cons (l : List Char) (m : Nat) (hm : 0 < m) (hl : l ≠ []) :
    split_text l m = l.take m :: split_text (l.drop m) m := by
  cases l with
  | nil => exact absurd rfl hl
  | cons a t =>
    show splitPieces m (t.length + 1) (a :: t)
      = (a :: t).take m :: splitPieces m ((a :: t).drop m).length ((a :: t).drop m)
    show (a :: t).take m :: splitPieces m t.length ((a :: t).drop m)
      = (a :: t).take m :: splitPieces m ((a :: t).drop m).length ((a :: t).drop m)
    rw [splitPieces_fuel m hm t.length ((a :: t).drop m).length ((a :: t).drop m)
      (by simp only [List.length_drop, List.length_cons]; omega) (le_refl _)]

theorem split_text_ne_nil (l : List Char) (m : Nat) (hm : 0 < m) (hl : l ≠ []) :
    split_text l m ≠ [] := by
  rw [split_text_cons l m hm hl]
  simp

/-- Python truthiness-based `a or b` on optional integers (`None` and `0`
are falsy), as used by the `getattr(...) or getattr(...)` chains. -/
def pyOrO (a b : Option Int) : Option Int :=
  match a with
  | none => b
  | some v => if v = 0 then b else some v

/-- Final `... or d` step of such a chain, producing an integer. -/
def pyOrI (a : Option Int) (d : Int) : Int :=
  match a with
  | none => d
  | some v => if v = 0 then d else v

/-- The `usage_metadata` object of a Gemini response: every field name the
code probes with `getattr(meta, ..., None)` is an optional integer. -/
structure UsageMeta where
  prompt_token_count : Option Int
  promptTokenCount : Option Int
  input_tokens : Option Int
  candidates_token_count : Option Int
  candidatesTokenCount : Option Int
  output_tokens : Option Int
  total_token_count : Option Int
  totalTokenCount : Option Int
deriving DecidableEq

/-- The process-wide `usage_stats` dictionary. -/
structure UsageStats where
  date : Nat
  requests : Int
  input_tokens : Int
  output_tokens : Int
  total_tokens : Int
deriving DecidableEq

/-- `input_tokens = getattr(meta, "prompt_token_count", None) or
getattr(meta, "promptTokenCount", None) or getattr(meta, "input_tokens", None) or 0`. -/
def metaInput (m : UsageMeta) : Int :=
  pyOrI (pyOrO (pyOrO m.prompt_token_count m.promptTokenCount) m.input_tokens) 0

/-- `output_tokens = getattr(meta, "candidates_token_count", None) or
getattr(meta, "candidatesTokenCount", None) or getattr(meta, "output_tokens", None) or 0`. -/
def metaOutput (m : UsageMeta) : Int :=
  pyOrI (pyOrO (pyOrO m.candidates_token_count m.candidatesTokenCount) m.output_tokens) 0

/-- `total_tokens = getattr(meta, "total_token_count", None) or
getattr(meta, "totalTokenCount", None) or (input_tokens + output_tokens)`. -/
def metaTotal (m : UsageMeta) : Int :=
  pyOrI (pyOrO m.total_token_count m.totalTokenCount) (metaInput m + metaOutput m)

/-- Embedding of `update_usage_from_response(response)`: the response is
represented by its (possibly absent) usage metadata; `if not meta: return`
leaves every counter untouched, otherwise all four counters are bumped
(the final `int(x or 0)` conversions are identities on integers). -/
def update_usage_from_response (stats : UsageStats) (meta : Option UsageMeta) :
    UsageStats :=
  match meta with
  | none => stats
  | some m =>
    { stats with
      requests := stats.requests + 1
      input_tokens := stats.input_tokens + metaInput m
      output_tokens := stats.output_tokens + metaOutput m
      total_tokens := stats.total_tokens + metaTotal m }

/-- Bool test that `needle` is an initial segment of `haystack`. -/
def listStarts : List Char → List Char → Bool
  | [], _ => true
  | _ :: _, [] => false
  | a :: as, b :: bs => a = b && listStarts as bs

/-- Bool test that `needle` occurs contiguously inside `haystack`. -/
def listHasSub (needle : List Char) : List Char → Bool
  | [] => listStarts needle []
  | b :: bs => listStarts needle (b :: bs) || listHasSub needle bs

/-- Python's `needle in haystack` on strings, used to classify error text. -/
def strHas (haystack needle : String) : Bool :=
  listHasSub needle.toList haystack.toList

/-- One role-tagged message of a chat session, as in the
`{"role": ..., "parts": [...]}` history entries. -/
structure Turn where
  role : String
  content : String
deriving DecidableEq

/-- The `user_chats` dictionary: `chat_id -> ChatSession`, a session being
its ordered turn history. -/
abbrev SessionMap := Int → Option (List Turn)

/-- `SYSTEM_PROMPT` from main.py. -/
def SYSTEM_PROMPT : String :=
  "Ты — дерзкий, немного надменный, но в целом доброжелательный Telegram-бот на базе Gemini. Отвечаешь с юмором и лёгким сарказмом, можешь слегка подшучивать над пользователем, но без оскорблений, токсичности, дискриминации, мата, жестокости и политики. Говоришь по-русски, кратко и по делу, иногда добавляешь смайлики или мемные обороты. Если вопрос технический или сложный — сначала даёшь суть, потом можешь добавить саркастичный комментарий."

/-- The persona preamble used when `chat_with_gemini` creates a session for
a user that skipped `/start`: system turn plus canned acknowledgment. -/
def personaPreambleChat : List Turn :=
  [⟨"user", SYSTEM_PROMPT⟩,
   ⟨"model", "Ну, поехали. Я уже настроен отвечать дерзко и с юмором."⟩]

/-- The persona preamble used by the `/start` handler. -/
def personaPreambleStart : List Turn :=
  [⟨"user", SYSTEM_PROMPT⟩,
   ⟨"model", "Окей, буду дерзким, но вежливым, как ты и просил 😏"⟩]

/-- Fixed over-limit decline reply. -/
def overLimitReply : String :=
  "📉 Ты уже исчерпал дневной лимит болтовни со мной.\nЯ, конечно, умный, но не бесплатная горячая линия. Заходи завтра 😉"

/-- Fixed quota-exhausted try-later reply. -/
def tryLaterReply : String :=
  "💥 Похоже, я сегодня уже выговорился сверх нормы.\nСервер Gemini устал и просит передохнуть. Попробуй ещё раз чуть позже 😌"

/-- Fixed context-overflow memory-reset notice. -/
def memoryResetReply : String :=
  "🤯 **Память переполнена.**\nИстория чата разрослась, как ТЗ от маркетолога. Я всё забыл, начинаем по новой."

/-- Fixed empty-model-reply notice. -/
def emptyReplyNotice : String :=
  "Gemini прислал пустой ответ. Видимо, шутка не зашла даже для него 🤷‍♂️"

/-- Outcome of `chat.send_message_async`: either a reply text with optional
usage metadata, or an exception whose `str(e)` is the error text. -/
inductive ModelResult where
  | success (text : String) (meta : Option UsageMeta)
  | failure (errorMsg : String)

/-- Process-wide mutable state touched by the message handler. -/
structure BotState where
  user_chats : SessionMap
  user_limits : LimitMap
  usage_stats : UsageStats

/-- What one run of the handler did: the final state, whether the upstream
model was invoked, and the texts answered to the user, in order. -/
structure StepResult where
  state : BotState
  modelInvoked : Bool
  replies : List String

/-- The `try`-block body and `except` classification of `chat_with_gemini`,
entered after admission, counting and session creation.  On success the
session history grows by the user turn and the model turn (done by the
upstream ChatSession), token usage is recorded, and the reply (split into
chunks) is answered — modelling transport sends as succeeding.  On failure
the error text is classified in source order: resource exhaustion first
(session kept), then context overflow (session deleted), else the generic
error echo. -/
def dispatchModelResult (chats1 : SessionMap) (limits2 : LimitMap)
    (stats : UsageStats) (chatId : Int) (text : String) (result : ModelResult) :
    StepResult :=
  match result with
  | .success rtext meta =>
    let stats1 := update_usage_from_response stats meta
    let chats2 := updMap chats1 chatId
      (some ((chats1 chatId).getD [] ++ [⟨"user", text⟩, ⟨"model", rtext⟩]))
    if rtext = "" then
      { state := ⟨chats2, limits2, stats1⟩, modelInvoked := true,
        replies := [emptyReplyNotice] }
    else
      { state := ⟨chats2, limits2, stats1⟩, modelInvoked := true,
        replies := (split_text rtext.toList 4000).map String.mk }
  | .failure errorMsg =>
    if strHas errorMsg "429" || strHas errorMsg "Resource exhausted" then
      { state := ⟨chats1, limits2, stats⟩, modelInvoked := true,
        replies := [tryLaterReply] }
    else if strHas errorMsg "Request payload size" || strHas errorMsg "400" then
      { state := ⟨updMap chats1 chatId none, limits2, stats⟩, modelInvoked := true,
        replies := [memoryResetReply] }
    else
      { state := ⟨chats1, limits2, stats⟩, modelInvoked := true,
        replies := ["⚠️ Произошла ошибка: " ++ errorMsg] }

/-- Embedding of the `chat_with_gemini` handler for one inbound text
message.  Order as in the source: daily-limit check (declining with the
fixed reply and no further effect), `inc_user_limit`, session creation for
users that skipped `/start`, then the throttled model call whose outcome is
the `result` argument (the typing indicator and `wait_for_slot` do not
touch this state).  -/
def chat_with_gemini (cap today : Nat) (st : BotState) (chatId : Int)
    (text : String) (result : ModelResult) : StepResult :=
  if (check_user_limit st.user_limits today chatId cap).1 then
    dispatchModelResult
      (match st.user_chats chatId with
       | none => updMap st.user_chats chatId (some personaPreambleChat)
       | some _ => st.user_chats)
      (inc_user_limit (check_user_limit st.user_limits today chatId cap).2 today chatId)
      st.usage_stats chatId text result
  else
    { state := { st with user_limits := (check_user_limit st.user_limits today chatId cap).2 },
      modelInvoked := false,
      replies := [overLimitReply] }

theorem split_text_join_aux (m : Nat) (hm : 0 < m) :
    ∀ (n : Nat) (l : List Char), l.length ≤ n → (split_text l m).flatten = l := by
  intro n
  induction n with
  | zero =>
    intro l h
    have : l = [] := by
      cases l with
      | nil => rfl
      | cons a t => simp at h
    subst this
    simp [split_text_nil]
  | succ k ih =>
    intro l h
    cases l with
    | nil => simp [split_text_nil]
    | cons a t =>
      rw [split_text_cons (a :: t) m hm (by simp)]
      have hdrop : ((a :: t).drop m).length ≤ k := by
        simp only [List.length_drop, List.length_cons] at *
        omega
      simp only [List.flatten_cons, ih _ hdrop, List.take_append_drop]

theorem split_text_chunk_le_aux (m : Nat) (hm : 0 < m) :
    ∀ (n : Nat) (l : List Char), l.length ≤ n →
      ∀ c ∈ split_text l m, c.length ≤ m := by
  intro n
  induction n with
  | zero =>
    intro l h c hc
    have : l = [] := by
      cases l with
      | nil => rfl
      | cons a t => simp at h
    subst this
    simp [split_text_nil] at hc
  | succ k ih =>
    intro l h c hc
    cases l with
    | nil => simp [split_text_nil] at hc
    | cons a t =>
      rw [split_text_cons (a :: t) m hm (by simp)] at hc
      have hdrop : ((a :: t).drop m).length ≤ k := by
        simp only [List.length_drop, List.length_cons] at *
        omega
      simp only [List.mem_cons] at hc
      rcases hc with hc | hc
      · subst hc
        simp [List.length_take]
      · exact ih _ hdrop c hc

theorem split_text_dropLast_aux (m : Nat) (hm : 0 < m) :
    ∀ (n : Nat) (l : List Char), l.length ≤ n →
      ∀ c ∈ (split_text l m).dropLast, c.length = m := by
  intro n
  induction n with
  | zero =>
    intro l h c hc
    have : l = [] := by
      cases l with
      | nil => rfl
      | cons a t => simp at h
    subst this
    simp [split_text_nil] at hc
  | succ k ih =>
    intro l h c hc
    cases l with
    | nil => simp [split_text_nil] at hc
    | cons a t =>
      rw [split_text_cons (a :: t) m hm (by simp)] at hc
      have hdrop : ((a :: t).drop m).length ≤ k := by
        simp only [List.length_drop, List.length_cons] at *
        omega
      by_cases hrest : split_text ((a :: t).drop m) m = []
      · rw [hrest] at hc
        simp at hc
      · rw [List.dropLast_cons_of_ne_nil hrest] at hc
        simp only [List.mem_cons] at hc
        rcases hc with hc | hc
        · subst hc
          have hne : (a :: t).drop m ≠ [] := by
            intro habs
            exact hrest (by rw [habs]; exact split_text_nil m)
          have hlt : m < t.length + 1 := by
            by_contra hge
            push_neg at hge
            exact hne (List.drop_eq_nil_of_le (by simpa using hge))
          simp only [List.length_take, List.length_cons]
          omega
        · exact ih _ hdrop c hc

theorem dispatchModelResult_invoked (chats1 : SessionMap) (limits2 : LimitMap)
    (stats : UsageStats) (chatId : Int) (text : String) (result : ModelResult) :
    (dispatchModelResult chats1 limits2 stats chatId text result).modelInvoked = true ∧
    (dispatchModelResult chats1 limits2 stats chatId text result).state.user_limits
      = limits2 := by
  cases result with
  | success rtext meta =>
    by_cases h : rtext = "" <;> simp [dispatchModelResult, h]
  | failure e =>
    by_cases h1 : (strHas e "429" || strHas e "Resource exhausted") = true
    · simp [dispatchModelResult, h1]
    · by_cases h2 : (strHas e "Request payload size" || strHas e "400") = true <;>
        simp [dispatchModelResult, h1, h2]

theorem chat_with_gemini_fresh (cap today : Nat) (st : BotState) (chatId : Int)
    (text : String) (result : ModelResult)
    (hfresh : freshFor st.user_limits chatId today) :
    (chat_with_gemini cap today st chatId text result).modelInvoked = true ∧
    (chat_with_gemini cap today st chatId text result).state.user_limits chatId
      = some ⟨today, 1⟩ := by
  have hc := check_user_limit_fresh st.user_limits today chatId cap hfresh
  have hupd : (updMap st.user_limits chatId (some ⟨today, 0⟩)) chatId
      = some ⟨today, (0 : Nat)⟩ := updMap_same _ _ _
  have hinc := inc_user_limit_today (updMap st.user_limits chatId (some ⟨today, 0⟩))
    today chatId 0 hupd
  constructor
  · simp only [chat_with_gemini, hc]
    exact (dispatchModelResult_invoked _ _ _ _ _ _).1
  · simp only [chat_with_gemini, hc, if_true]
    rw [(dispatchModelResult_invoked _ _ _ _ _ _).2]
    simp only [hinc]
    exact updMap_same _ _ _

theorem chat_with_gemini_counted (cap today : Nat) (st : BotState) (chatId : Int)
    (text : String) (result : ModelResult) (k : Nat)
    (hk : st.user_limits chatId = some ⟨today, k⟩) (hlt : k < cap) :
    (chat_with_gemini cap today st chatId text result).modelInvoked = true ∧
    (chat_with_gemini cap today st chatId text result).state.user_limits chatId
      = some ⟨today, k + 1⟩ := by
  have hc := check_user_limit_today st.user_limits today chatId cap ⟨today, k⟩ hk rfl
  have hinc := inc_user_limit_today st.user_limits today chatId k hk
  have hck : (check_user_limit st.user_limits today chatId cap).1 = true := by
    rw [hc]; simpa using hlt
  constructor
  · simp only [chat_with_gemini, hck, if_true]
    exact (dispatchModelResult_invoked _ _ _ _ _ _).1
  · simp only [chat_with_gemini, hck, if_true]
    rw [(dispatchModelResult_invoked _ _ _ _ _ _).2, hc]
    simp only [hinc]
    exact updMap_same _ _ _

theorem chat_with_gemini_declined (cap today : Nat) (st : BotState) (chatId : Int)
    (text : String) (result : ModelResult) (k : Nat)
    (hk : st.user_limits chatId = some ⟨today, k⟩) (hge : ¬ k < cap) :
    chat_with_gemini cap today st chatId text result =
      { state := st, modelInvoked := false, replies := [overLimitReply] } := by
  have hc := check_user_limit_today st.user_limits today chatId cap ⟨today, k⟩ hk rfl
  have hdec : decide (k < cap) = false := by simpa using hge
  simp only [chat_with_gemini, hc, hdec, Bool.false_eq_true, if_false]

/-- State of the process after the first `n` same-day messages of one user
have been handled; message number `i` carries text `(msgOf i).1` and its
model call (if reached) returns `(msgOf i).2`. -/
def stateAfter (cap today : Nat) (chatId : Int) (msgOf : Nat → String × ModelResult)
    (st : BotState) : Nat → BotState
  | 0 => st
  | n + 1 =>
    (chat_with_gemini cap today (stateAfter cap today chatId msgOf st n) chatId
      (msgOf n).1 (msgOf n).2).state

/-- The handler outcome of message number `n` (0-based) in that sequence. -/
def outcomeAt (cap today : Nat) (chatId : Int) (msgOf : Nat → String × ModelResult)
    (st : BotState) (n : Nat) : StepResult :=
  chat_with_gemini cap today (stateAfter cap today chatId msgOf st n) chatId
    (msgOf n).1 (msgOf n).2

theorem stateAfter_limits (cap today : Nat) (chatId : Int)
    (msgOf : Nat → String × ModelResult) (st : BotState)
    (hfresh : freshFor st.user_limits chatId today) :
    ∀ n, n ≤ cap → 1 ≤ n →
      (stateAfter cap today chatId msgOf st n).user_limits chatId = some ⟨today, n⟩ := by
  intro n
  induction n with
  | zero => omega
  | succ k ih =>
    intro hle _
    cases Nat.eq_zero_or_pos k with
    | inl h0 =>
      subst h0
      exact (chat_with_gemini_fresh cap today st chatId (msgOf 0).1 (msgOf 0).2 hfresh).2
    | inr hpos =>
      have hk := ih (by omega) hpos
      exact (chat_with_gemini_counted cap today
        (stateAfter cap today chatId msgOf st k) chatId (msgOf k).1 (msgOf k).2 k hk
        (by omega)).2

/-- Empty process state at startup: no sessions, no limit records, zeroed
usage ledger. -/
def initBotState : BotState :=
  { user_chats := fun _ => none
    user_limits := fun _ => none
    usage_stats := { date := 0, requests := 0, input_tokens := 0,
                     output_tokens := 0, total_tokens := 0 } }

/-- A same-day stream of messages whose model calls all succeed. -/
def demoMsgOf : Nat → String × ModelResult :=
  fun _ => ("привет", ModelResult.success "ок" none)

/-- C1: for every user and every same-day message sequence begun on a fresh
day, each of the first `cap` messages is admitted and forwarded to the
model, and the `(cap + 1)`-th message is declined with the fixed over-limit
reply, without invoking the model and without touching the session store
(the declining step changes no state at all). -/
theorem C1_daily_cap (cap today : Nat) (chatId : Int)
    (msgOf : Nat → String × ModelResult) (st : BotState)
    (hfresh : freshFor st.user_limits chatId today) (hcap : 0 < cap) :
    (∀ i, i < cap → (outcomeAt cap today chatId msgOf st i).modelInvoked = true) ∧
    (outcomeAt cap today chatId msgOf st cap).modelInvoked = false ∧
    (outcomeAt cap today chatId msgOf st cap).replies = [overLimitReply] ∧
    (outcomeAt cap today chatId msgOf st cap).state =
      stateAfter cap today chatId msgOf st cap := by
  have hlim := stateAfter_limits cap today chatId msgOf st hfresh
  have hdecl : chat_with_gemini cap today (stateAfter cap today chatId msgOf st cap)
      chatId (msgOf cap).1 (msgOf cap).2 =
      { state := stateAfter cap today chatId msgOf st cap, modelInvoked := false,
        replies := [overLimitReply] } :=
    chat_with_gemini_declined cap today (stateAfter cap today chatId msgOf st cap)
      chatId (msgOf cap).1 (msgOf cap).2 cap (hlim cap (le_refl cap) hcap)
      (lt_irrefl cap)
  refine ⟨?_, ?_, ?_, ?_⟩
  · intro i hi
    cases Nat.eq_zero_or_pos i with
    | inl h0 =>
      subst h0
      exact (chat_with_gemini_fresh cap today st chatId (msgOf 0).1 (msgOf 0).2 hfresh).1
    | inr hpos =>
      exact (chat_with_gemini_counted cap today
        (stateAfter cap today chatId msgOf st i) chatId (msgOf i).1 (msgOf i).2 i
        (hlim i (le_of_lt hi) hpos) hi).1
  · rw [outcomeAt, hdecl]
  · rw [outcomeAt, hdecl]
  · rw [outcomeAt, hdecl]

theorem C1_daily_cap_witness :
    (outcomeAt 2 0 1 demoMsgOf initBotState 0).modelInvoked = true ∧
    (outcomeAt 2 0 1 demoMsgOf initBotState 2).modelInvoked = false ∧
    (outcomeAt 2 0 1 demoMsgOf initBotState 2).replies = [overLimitReply] := by
  have h := C1_daily_cap 2 0 1 demoMsgOf initBotState (Or.inl rfl) (by decide)
  exact ⟨h.1 0 (by decide), h.2.1, h.2.2.1⟩

/-- One `admit` (`check_user_limit`) immediately followed by one `record`
(`inc_user_limit`), iterated; the first argument of the pair returned by
`check_user_limit` is discarded since `record` is called unconditionally in
this protocol. -/
def admitRecordIter (cap today : Nat) (chatId : Int) : Nat → LimitMap → LimitMap
  | 0, s => s
  | n + 1, s =>
    admitRecordIter cap today chatId n
      (inc_user_limit (check_user_limit s today chatId cap).2 today chatId)

theorem admitRecordIter_counted (cap today : Nat) (chatId : Int) :
    ∀ (N : Nat) (s : LimitMap) (k : Nat), s chatId = some ⟨today, k⟩ →
      admitRecordIter cap today chatId N s chatId = some ⟨today, k + N⟩ := by
  intro N
  induction N with
  | zero =>
    intro s k hk
    simpa [admitRecordIter] using hk
  | succ n ih =>
    intro s k hk
    have hc := check_user_limit_today s today chatId cap ⟨today, k⟩ hk rfl
    have hinc := inc_user_limit_today s today chatId k hk
    show admitRecordIter cap today chatId n
      (inc_user_limit (check_user_limit s today chatId cap).2 today chatId) chatId
      = some ⟨today, k + (n + 1)⟩
    rw [hc]
    simp only [hinc]
    have := ih (updMap s chatId (some ⟨today, k + 1⟩)) (k + 1) (updMap_same _ _ _)
    rw [this]
    congr 2
    omega

/-- C2: `admit` immediately followed by `record`, repeated `N + 1` times on
the same day from a fresh-day state, leaves the stored count exactly
`N + 1`; and whenever the stored record's date differs from today, `admit`
returns true regardless of the stored count. -/
theorem C2_admit_record (cap today : Nat) (chatId : Int) :
    (∀ (s : LimitMap), freshFor s chatId today →
      ∀ N, admitRecordIter cap today chatId (N + 1) s chatId = some ⟨today, N + 1⟩) ∧
    (∀ (s : LimitMap) (info : LimitInfo), s chatId = some info → info.date ≠ today →
      (check_user_limit s today chatId cap).1 = true) := by
  constructor
  · intro s hfresh N
    have hc := check_user_limit_fresh s today chatId cap hfresh
    show admitRecordIter cap today chatId N
      (inc_user_limit (check_user_limit s today chatId cap).2 today chatId) chatId
      = some ⟨today, N + 1⟩
    rw [hc]
    have hinc := inc_user_limit_today (updMap s chatId (some ⟨today, 0⟩)) today chatId 0
      (updMap_same _ _ _)
    simp only [hinc]
    have := admitRecordIter_counted cap today chatId N
      (updMap (updMap s chatId (some ⟨today, 0⟩)) chatId (some ⟨today, 0 + 1⟩)) 1
      (by simpa using updMap_same _ _ _)
    rw [this]
    congr 2
    omega
  · intro s info hinfo hdate
    rw [check_user_limit_fresh s today chatId cap (Or.inr ⟨info, hinfo, hdate⟩)]

/-- A stored record from an earlier day (date 5, count 7). -/
def staleLimitMap : LimitMap := fun _ => some ⟨5, 7⟩

theorem C2_admit_record_witness :
    admitRecordIter 30 0 1 3 (fun _ => none) 1 = some ⟨0, 3⟩ ∧
    (check_user_limit staleLimitMap 0 1 30).1 = true := by
  have h := C2_admit_record 30 0 1
  exact ⟨h.1 (fun _ => none) (Or.inl rfl) 2, h.2 staleLimitMap ⟨5, 7⟩ rfl (by decide)⟩

/-- C5: the segmenter is a pure split whose chunks concatenate back to the
input, each chunk is at most `m` long, and every chunk except possibly the
last is exactly `m` long (order is preserved by concatenation identity). -/
theorem C5_segmenter (l : List Char) (m : Nat) (hm : 0 < m) :
    (split_text l m).flatten = l ∧
    (∀ c ∈ split_text l m, c.length ≤ m) ∧
    (∀ c ∈ (split_text l m).dropLast, c.length = m) :=
  ⟨split_text_join_aux m hm l.length l (le_refl _),
   split_text_chunk_le_aux m hm l.length l (le_refl _),
   split_text_dropLast_aux m hm l.length l (le_refl _)⟩

theorem C5_segmenter_witness :
    (split_text ("hello world").toList 4).flatten = ("hello world").toList :=
  (C5_segmenter ("hello world").toList 4 (by decide)).1

theorem dispatch_success_usage (chats1 : SessionMap) (limits2 : LimitMap)
    (stats : UsageStats) (chatId : Int) (text rtext : String) :
    (dispatchModelResult chats1 limits2 stats chatId text
      (.success rtext none)).state.usage_stats = stats := by
  by_cases h : rtext = "" <;> simp [dispatchModelResult, update_usage_from_response, h]

theorem dispatch_success_replies (chats1 : SessionMap) (limits2 : LimitMap)
    (stats : UsageStats) (chatId : Int) (text rtext : String)
    (meta : Option UsageMeta) :
    (dispatchModelResult chats1 limits2 stats chatId text
      (.success rtext meta)).replies =
      if rtext = "" then [emptyReplyNotice]
      else (split_text rtext.toList 4000).map String.mk := by
  by_cases h : rtext = "" <;> simp [dispatchModelResult, h]

/-- C7: when the upstream response carries no usage metadata, `record` is
skipped entirely — the usage ledger (request count included) is exactly the
old one — and the reply sent to the user is the ordinary success reply,
independent of any metadata, so no metadata-related failure ever reaches
the user. -/
theorem C7_missing_usage_metadata (cap today : Nat) (st : BotState) (chatId : Int)
    (text rtext : String)
    (hadm : (check_user_limit st.user_limits today chatId cap).1 = true) :
    (chat_with_gemini cap today st chatId text
        (.success rtext none)).state.usage_stats = st.usage_stats ∧
    (∀ meta, (chat_with_gemini cap today st chatId text (.success rtext meta)).replies
      = (chat_with_gemini cap today st chatId text (.success rtext none)).replies) ∧
    (chat_with_gemini cap today st chatId text (.success rtext none)).replies =
      (if rtext = "" then [emptyReplyNotice]
       else (split_text rtext.toList 4000).map String.mk) := by
  refine ⟨?_, ?_, ?_⟩
  · simp only [chat_with_gemini, hadm, if_true]
    exact dispatch_success_usage _ _ _ _ _ _
  · intro meta
    simp only [chat_with_gemini, hadm, if_true]
    rw [dispatch_success_replies, dispatch_success_replies]
  · simp only [chat_with_gemini, hadm, if_true]
    rw [dispatch_success_replies]

theorem C7_missing_usage_metadata_witness :
    (chat_with_gemini 30 0 initBotState 1 "привет"
        (.success "ок" none)).state.usage_stats = initBotState.usage_stats ∧
    (chat_with_gemini 30 0 initBotState 1 "привет"
        (.success "ок" (some ⟨some 10, none, none, some 5, none, none, some 15, none⟩))).replies
      = (chat_with_gemini 30 0 initBotState 1 "привет" (.success "ок" none)).replies := by
  have h := C7_missing_usage_metadata 30 0 initBotState 1 "привет" "ок" rfl
  exact ⟨h.1, h.2.1 (some ⟨some 10, none, none, some 5, none, none, some 15, none⟩)⟩

/-- C8: an admitted model call failing with error text containing "429" or
"Resource exhausted" yields the fixed try-later reply; the session map is
completely untouched (the user's session is still present with its turn
history) and the usage ledger is unchanged; the handler returns normally
(the classification swallows the exception instead of re-raising). -/
theorem C8_quota_exhausted (cap today : Nat) (st : BotState) (chatId : Int)
    (text err : String) (hist : List Turn)
    (hadm : (check_user_limit st.user_limits today chatId cap).1 = true)
    (hsess : st.user_chats chatId = some hist)
    (hq : strHas err "429" = true ∨ strHas err "Resource exhausted" = true) :
    (chat_with_gemini cap today st chatId text (.failure err)).state.user_chats
      = st.user_chats ∧
    (chat_with_gemini cap today st chatId text (.failure err)).state.user_chats chatId
      = some hist ∧
    (chat_with_gemini cap today st chatId text (.failure err)).replies
      = [tryLaterReply] ∧
    (chat_with_gemini cap today st chatId text (.failure err)).state.usage_stats
      = st.usage_stats := by
  have hqb : (strHas err "429" || strHas err "Resource exhausted") = true := by
    rcases hq with h | h <;> simp [h]
  have key : chat_with_gemini cap today st chatId text (.failure err) =
      { state := ⟨st.user_chats,
          inc_user_limit (check_user_limit st.user_limits today chatId cap).2
            today chatId, st.usage_stats⟩,
        modelInvoked := true, replies := [tryLaterReply] } := by
    simp only [chat_with_gemini, hadm, if_true, hsess]
    simp only [dispatchModelResult, hqb, if_true]
  rw [key]
  exact ⟨rfl, hsess, rfl, rfl⟩

/-- A one-user state whose session already holds the persona preamble. -/
def c8State : BotState :=
  { user_chats := fun k => if k = 1 then some personaPreambleStart else none
    user_limits := fun _ => none
    usage_stats := { date := 0, requests := 0, input_tokens := 0,
                     output_tokens := 0, total_tokens := 0 } }

theorem C8_quota_exhausted_witness :
    (chat_with_gemini 30 0 c8State 1 "привет" (.failure "429")).state.user_chats 1
      = some personaPreambleStart ∧
    (chat_with_gemini 30 0 c8State 1 "привет" (.failure "429")).replies
      = [tryLaterReply] := by
  have h := C8_quota_exhausted 30 0 c8State 1 "привет" "429" personaPreambleStart
    rfl rfl (Or.inl rfl)
  exact ⟨h.2.1, h.2.2.1⟩

/-- A one-user state whose session is present, for exercising the failure
classification. -/
def c4State : BotState :=
  { user_chats := fun k => if k = 1 then some personaPreambleChat else none
    user_limits := fun _ => none
    usage_stats := { date := 0, requests := 0, input_tokens := 0,
                     output_tokens := 0, total_tokens := 0 } }

/-- C4 counterexample: the claim classifies any error text containing
"Request payload size" or "400" as ContextTooLarge, but the code tests the
quota patterns first, so the error text "400 Resource exhausted" (which
contains "400") leaves the session in place and answers the try-later
reply, not the memory-reset notice. -/
theorem C4_claim_counterexample :
    strHas "400 Resource exhausted" "400" = true ∧
    (chat_with_gemini 30 0 c4State 1 "привет"
        (.failure "400 Resource exhausted")).state.user_chats 1
      = some personaPreambleChat ∧
    (chat_with_gemini 30 0 c4State 1 "привет"
        (.failure "400 Resource exhausted")).replies = [tryLaterReply] ∧
    [tryLaterReply] ≠ [memoryResetReply] := by
  refine ⟨rfl, rfl, rfl, by decide⟩

theorem chat_absent_success_session (cap today : Nat) (st : BotState) (chatId : Int)
    (text rtext : String) (meta : Option UsageMeta)
    (hadm : (check_user_limit st.user_limits today chatId cap).1 = true)
    (habsent : st.user_chats chatId = none) :
    (chat_with_gemini cap today st chatId text
        (.success rtext meta)).state.user_chats chatId
      = some (personaPreambleChat ++ [⟨"user", text⟩, ⟨"model", rtext⟩]) := by
  simp only [chat_with_gemini, hadm, if_true, habsent]
  by_cases h : rtext = "" <;> simp [dispatchModelResult, h, updMap]

/-- C4 (amended): after an admitted model call fails with error text that
contains "Request payload size" or "400" and contains neither "429" nor
"Resource exhausted" (the quota patterns are matched first), the user's
session is deleted from the store and the fixed memory-reset notice is
sent; the next admitted message for that user creates a fresh session
seeded with the persona preamble. -/
theorem C4_context_overflow (cap today : Nat) (st : BotState) (chatId : Int)
    (text err : String)
    (hadm : (check_user_limit st.user_limits today chatId cap).1 = true)
    (hctx : strHas err "Request payload size" = true ∨ strHas err "400" = true)
    (hq1 : strHas err "429" = false) (hq2 : strHas err "Resource exhausted" = false) :
    (chat_with_gemini cap today st chatId text (.failure err)).state.user_chats chatId
      = none ∧
    (chat_with_gemini cap today st chatId text (.failure err)).replies
      = [memoryResetReply] ∧
    ∀ (cap2 today2 : Nat) (text2 rtext : String) (meta : Option UsageMeta),
      (check_user_limit
        (chat_with_gemini cap today st chatId text (.failure err)).state.user_limits
        today2 chatId cap2).1 = true →
      (chat_with_gemini cap2 today2
          (chat_with_gemini cap today st chatId text (.failure err)).state chatId
          text2 (.success rtext meta)).state.user_chats chatId
        = some (personaPreambleChat ++ [⟨"user", text2⟩, ⟨"model", rtext⟩]) := by
  have hqb : (strHas err "429" || strHas err "Resource exhausted") = false := by
    simp [hq1, hq2]
  have hcb : (strHas err "Request payload size" || strHas err "400") = true := by
    rcases hctx with h | h <;> simp [h]
  have habs : (chat_with_gemini cap today st chatId text
      (.failure err)).state.user_chats chatId = none := by
    simp only [chat_with_gemini, hadm, if_true]
    simp only [dispatchModelResult, hqb, Bool.false_eq_true, if_false, hcb, if_true]
    exact updMap_same _ _ _
  refine ⟨habs, ?_, ?_⟩
  · simp only [chat_with_gemini, hadm, if_true]
    simp only [dispatchModelResult, hqb, Bool.false_eq_true, if_false, hcb, if_true]
  · intro cap2 today2 text2 rtext meta hadm2
    exact chat_absent_success_session cap2 today2 _ chatId text2 rtext meta hadm2 habs

theorem C4_context_overflow_witness :
    (chat_with_gemini 30 0 c4State 1 "привет"
        (.failure "Request payload size exceeds the limit")).state.user_chats 1
      = none ∧
    (chat_with_gemini 30 0 c4State 1 "привет"
        (.failure "Request payload size exceeds the limit")).replies
      = [memoryResetReply] ∧
    (chat_with_gemini 30 0
        (chat_with_gemini 30 0 c4State 1 "привет"
          (.failure "Request payload size exceeds the limit")).state 1 "снова"
        (.success "ок" none)).state.user_chats 1
      = some (personaPreambleChat ++ [⟨"user", "снова"⟩, ⟨"model", "ок"⟩]) := by
  have h := C4_context_overflow 30 0 c4State 1 "привет"
    "Request payload size exceeds the limit" rfl (Or.inl rfl) rfl rfl
  exact ⟨h.1, h.2.1, h.2.2 30 0 "снова" "ок" none rfl⟩

/-- Telegram parse mode used for a send attempt: `ParseMode.MARKDOWN` (the
bot default) or `parse_mode=None`. -/
inductive SendMode where
  | markdown
  | plain
deriving DecidableEq

/-- Observable behaviour of one `safe_send_message` run: every send attempt
with its parse mode in order, the chunks actually delivered, and whether an
exception escaped the function. -/
structure SendTrace where
  attempts : List (List Char × SendMode)
  delivered : List (List Char)
  raised : Bool
deriving DecidableEq

/-- The per-part loop of `safe_send_message`: try the part with MARKDOWN;
on exception retry that same part once with `parse_mode=None`; if the plain
retry also raises, the exception propagates out of the loop and the
remaining parts are never attempted.  `richOk p` / `plainOk p` say whether
`message.answer(p, mode)` succeeds in the respective mode. -/
def sendParts (richOk plainOk : List Char → Bool) : List (List Char) → SendTrace
  | [] => ⟨[], [], false⟩
  | p :: rest =>
    if richOk p then
      let t := sendParts richOk plainOk rest
      ⟨(p, .markdown) :: t.attempts, p :: t.delivered, t.raised⟩
    else if plainOk p then
      let t := sendParts richOk plainOk rest
      ⟨(p, .markdown) :: (p, .plain) :: t.attempts, p :: t.delivered, t.raised⟩
    else
      ⟨[(p, .markdown), (p, .plain)], [], true⟩

/-- Embedding of `safe_send_message(message, text)`: split the text into
4000-character chunks and send each in order. -/
def safe_send_message (richOk plainOk : List Char → Bool) (text : List Char) :
    SendTrace :=
  sendParts richOk plainOk (split_text text 4000)

theorem split_text_two_chunks :
    split_text (List.replicate 4001 'a') 4000
      = [List.replicate 4000 'a', List.replicate 1 'a'] := by
  have hne1 : List.replicate 4001 'a' ≠ [] :=
    List.length_pos.mp (by rw [List.length_replicate]; norm_num)
  have hne2 : List.replicate 1 'a' ≠ [] :=
    List.length_pos.mp (by rw [List.length_replicate]; norm_num)
  have h1 : List.take 4000 (List.replicate 4001 'a') = List.replicate 4000 'a' := by
    rw [List.take_replicate]
    norm_num
  have h2 : List.drop 4000 (List.replicate 4001 'a') = List.replicate 1 'a' := by
    rw [List.drop_replicate]
  have h3 : List.take 4000 (List.replicate 1 'a') = List.replicate 1 'a' := by
    rw [List.take_replicate]
    norm_num
  have h4 : List.drop 4000 (List.replicate 1 'a') = ([] : List Char) := by
    rw [List.drop_replicate]
    norm_num
  rw [split_text_cons _ _ (by norm_num) hne1, h1, h2]
  rw [split_text_cons _ _ (by norm_num) hne2, h3, h4, split_text_nil]

/-- C6 counterexample: a 4001-character reply splits into two chunks; when
the first chunk fails in rich mode and its single plain-mode retry also
fails, the exception propagates and the second chunk is never attempted —
a chunk's failure is not contained per-chunk. -/
theorem C6_claim_counterexample :
    split_text (List.replicate 4001 'a') 4000
      = [List.replicate 4000 'a', List.replicate 1 'a'] ∧
    (safe_send_message (fun _ => false) (fun _ => false)
        (List.replicate 4001 'a')).raised = true ∧
    (safe_send_message (fun _ => false) (fun _ => false)
        (List.replicate 4001 'a')).attempts
      = [(List.replicate 4000 'a', SendMode.markdown),
         (List.replicate 4000 'a', SendMode.plain)] ∧
    (safe_send_message (fun _ => false) (fun _ => false)
        (List.replicate 4001 'a')).delivered = [] := by
  have hs := split_text_two_chunks
  refine ⟨hs, ?_⟩
  rw [safe_send_message, hs]
  exact ⟨rfl, rfl, rfl⟩

/-- C6 (amended): every chunk that fails in rich mode is retried exactly
once in plain mode; when each rich-failing chunk succeeds in plain mode,
all chunks of the reply are delivered in order and no exception escapes,
so such failures are contained per-chunk.  (When a chunk fails in both
modes, the exception propagates and the remaining chunks are not sent.) -/
theorem C6_chunk_retry (richOk plainOk : List Char → Bool) (text : List Char)
    (h : ∀ p ∈ split_text text 4000, richOk p = false → plainOk p = true) :
    (safe_send_message richOk plainOk text).delivered = split_text text 4000 ∧
    (safe_send_message richOk plainOk text).raised = false ∧
    (safe_send_message richOk plainOk text).attempts
      = (split_text text 4000).flatMap (fun p =>
          if richOk p then [(p, SendMode.markdown)]
          else [(p, SendMode.markdown), (p, SendMode.plain)]) := by
  rw [safe_send_message]
  generalize split_text text 4000 = parts at h ⊢
  induction parts with
  | nil => exact ⟨rfl, rfl, rfl⟩
  | cons p rest ih =>
    have hrest := ih (fun q hq hr => h q (List.mem_cons_of_mem p hq) hr)
    by_cases hr : richOk p
    · simp [sendParts, hr, hrest.1, hrest.2.1, hrest.2.2]
    · have hp : plainOk p = true :=
        h p (List.mem_cons_self p rest) (by simpa using hr)
      simp [sendParts, hr, hp, hrest.1, hrest.2.1, hrest.2.2]

theorem C6_chunk_retry_witness :
    (safe_send_message (fun _ => false) (fun _ => true)
        ("привет").toList).delivered = split_text ("привет").toList 4000 ∧
    (safe_send_message (fun _ => false) (fun _ => true)
        ("привет").toList).raised = false := by
  have h := C6_chunk_retry (fun _ => false) (fun _ => true) ("привет").toList
    (by intro p hp hr; rfl)
  exact ⟨h.1, h.2.1⟩

/-- `MIN_DELAY = 0.5` seconds, in tenths of a second. -/
def MIN_DELAY_TENTHS : Nat := 5

/-- The two scheduling-relevant program points of `wait_for_slot` under the
asyncio execution model.  Between `now = time.time()` and the `await
asyncio.sleep(...)` there is no suspension point, so reading the clock,
reading `LAST_REQUEST_TS` and computing the wake time form one atomic
`enter` step; the wake-up, the write `LAST_REQUEST_TS = time.time()` and
the return (the start of the upstream call slot) form one atomic `resume`
step.  Other tasks may run between a task's `enter` and its `resume`. -/
inductive ThrottleEvent where
  | enter (task : Nat) (time : Nat)
  | resume (task : Nat) (time : Nat)
deriving DecidableEq

/-- Global throttle state: the shared `LAST_REQUEST_TS`, the tasks
currently sleeping with their computed wake times, the recorded slot-start
times in order, a monotone wall clock, and a validity flag (`ok = false`
marks a schedule that violates program order or time monotonicity). -/
structure ThrottleWorld where
  lastTs : Nat
  pending : List (Nat × Nat)
  slots : List Nat
  clock : Nat
  ok : Bool
deriving DecidableEq

/-- One scheduled step of `wait_for_slot`.  `enter` computes
`delta = now - LAST_REQUEST_TS` and the wake time
(`LAST_REQUEST_TS + MIN_DELAY` if `delta < MIN_DELAY`, else `now`);
`resume` requires the wake time to have been reached, then writes
`LAST_REQUEST_TS` and records the slot start.  The sleeping task does not
re-read `LAST_REQUEST_TS` when it wakes — `wait_for_slot` has no loop. -/
def throttleStep (minDelay : Nat) (w : ThrottleWorld) (e : ThrottleEvent) :
    ThrottleWorld :=
  match e with
  | .enter task t =>
    if w.ok && decide (w.clock ≤ t) && w.pending.all (fun p => p.1 != task) then
      { w with
        pending := w.pending ++
          [(task, if t - w.lastTs < minDelay then w.lastTs + minDelay else t)]
        clock := t }
    else
      { w with ok := false }
  | .resume task t =>
    match w.pending.lookup task with
    | some wake =>
      if w.ok && decide (w.clock ≤ t) && decide (wake ≤ t) then
        { lastTs := t
          pending := w.pending.filter (fun p => p.1 != task)
          slots := w.slots ++ [t]
          clock := t
          ok := w.ok }
      else
        { w with ok := false }
    | none => { w with ok := false }

/-- Run a schedule of `wait_for_slot` steps from process start
(`LAST_REQUEST_TS = 0.0`, no sleepers, empty history). -/
def runThrottle (minDelay : Nat) (events : List ThrottleEvent) : ThrottleWorld :=
  events.foldl (throttleStep minDelay) ⟨0, [], [], 0, true⟩

/-- The racy schedule: with `LAST_REQUEST_TS = 0`, task 1 enters
`wait_for_slot` at time 0.1s and task 2 at time 0.2s; both read the stale
timestamp 0, both compute wake time 0.5s, sleep, and both resume at 0.5s. -/
def raceEvents : List ThrottleEvent :=
  [.enter 1 1, .enter 2 2, .resume 1 5, .resume 2 5]

/-- Bool check that consecutive recorded slot starts are at least
`minDelay` apart — the serialization property the spec demands of the
throttle. -/
def minGapsOk (minDelay : Nat) : List Nat → Bool
  | [] => true
  | [_] => true
  | a :: b :: rest => decide (a + minDelay ≤ b) && minGapsOk minDelay (b :: rest)

/-- C3: the claim — that concurrent `wait_for_slot` callers serialize so
that recorded slot starts are at least `MIN_DELAY` apart with no lost
update of `LAST_REQUEST_TS` — fails: the racy schedule is a valid
interleaving (the code takes no lock and does not re-check after its
sleep), yet it records two slot starts at the same instant 0.5s, 0 < 0.5s
apart, the first task's timestamp write being overwritten unobserved. -/
theorem C3_throttle_race :
    (runThrottle MIN_DELAY_TENTHS raceEvents).ok = true ∧
    (runThrottle MIN_DELAY_TENTHS raceEvents).slots = [5, 5] ∧
    minGapsOk MIN_DELAY_TENTHS (runThrottle MIN_DELAY_TENTHS raceEvents).slots
      = false :=
  ⟨rfl, rfl, rfl⟩

/-- Environment as seen by `os.getenv`. -/
abbrev EnvMap := String → Option String

/-- What main.py actually fixes at module init: `BOT_TOKEN`,
`GEMINI_API_KEY` and `ADMIN_CHAT_ID` are read from the environment;
`MAX_MESSAGES_PER_DAY = 30` and `MIN_DELAY = 0.5` are hardcoded literals
(the latter kept in tenths of a second here).  A malformed `ADMIN_CHAT_ID`
would raise in `int(...)`; that case is modelled as 0. -/
structure BotConfig where
  BOT_TOKEN : Option String
  GEMINI_API_KEY : Option String
  ADMIN_CHAT_ID : Int
  MAX_MESSAGES_PER_DAY : Nat
  MIN_DELAY_tenths : Nat
deriving DecidableEq

/-- Decimal digit value of a character, if it is a digit. -/
def digitVal (c : Char) : Option Nat :=
  if c.isDigit then some (c.toNat - 48) else none

/-- Accumulating decimal parse of a digit sequence. -/
def parseNatAux : List Char → Nat → Option Nat
  | [], acc => some acc
  | c :: cs, acc =>
    match digitVal c with
    | some d => parseNatAux cs (acc * 10 + d)
    | none => none

/-- Parse a nonempty all-digit string as a natural number. -/
def parseNatDigits : List Char → Option Nat
  | [] => none
  | l => parseNatAux l 0

/-- Python's `int(s)` on a decimal literal with optional leading minus
(other accepted spellings such as leading `+` or whitespace are not
load-bearing here and parse to `none`). -/
def pyInt (s : String) : Option Int :=
  match s.toList with
  | '-' :: rest => (parseNatDigits rest).map (fun n => -(n : Int))
  | l => (parseNatDigits l).map (fun n => (n : Int))

/-- The module-init configuration reads of main.py, from a given
environment: `int(os.getenv("ADMIN_CHAT_ID", "0") or "0")` (a parse
failure would abort startup in Python; modelled as 0). -/
def loadConfig (env : EnvMap) : BotConfig :=
  { BOT_TOKEN := env "BOT_TOKEN"
    GEMINI_API_KEY := env "GEMINI_API_KEY"
    ADMIN_CHAT_ID :=
      (pyInt (if ((env "ADMIN_CHAT_ID").getD "0") = "" then "0"
              else (env "ADMIN_CHAT_ID").getD "0")).getD 0
    MAX_MESSAGES_PER_DAY := MAX_MESSAGES_PER_DAY
    MIN_DELAY_tenths := MIN_DELAY_TENTHS }

/-- C9 counterexample: in the environment assigning every variable the
string "5" — so any candidate cap variable reads 5 messages and any
candidate interval variable reads 5 seconds (= 50 tenths) — the program's
effective cap is still 30 ≠ 5 and its effective minimum interval is still
0.5 s = 5 tenths ≠ 50 tenths: neither value is sourced from the
environment. -/
theorem C9_claim_counterexample :
    (loadConfig (fun _ => some "5")).MAX_MESSAGES_PER_DAY = 30 ∧
    (30 : Nat) ≠ 5 ∧
    (loadConfig (fun _ => some "5")).MIN_DELAY_tenths = 5 ∧
    (5 : Nat) ≠ 50 :=
  ⟨rfl, by decide, rfl, by decide⟩

/-- C9 (amended): the daily per-user cap and the minimum upstream call
interval are hardcoded constants (30 messages and 0.5 s), identical under
every environment; only the credentials (and operator id) are
environment-sourced, read once at module init. -/
theorem C9_hardcoded_limits (env : EnvMap) :
    (loadConfig env).MAX_MESSAGES_PER_DAY = 30 ∧
    (loadConfig env).MIN_DELAY_tenths = MIN_DELAY_TENTHS ∧
    (loadConfig env).BOT_TOKEN = env "BOT_TOKEN" ∧
    (loadConfig env).GEMINI_API_KEY = env "GEMINI_API_KEY" :=
  ⟨rfl, rfl, rfl, rfl⟩

/-- Events that touch the usage ledger during the process lifetime: a
successful model call recording its (possibly absent) usage metadata, or
an hourly wake-up of the `billing_notifier` loop observing the current
date. -/
inductive UsageEvent where
  | record (meta : Option UsageMeta)
  | tick (today : Nat)

/-- Local state of the `billing_notifier` coroutine. -/
structure NotifierState where
  running : Bool
  last_reported_date : Nat
deriving DecidableEq

/-- `billing_notifier` startup: `if not ADMIN_CHAT_ID: return` — with an
unset or zero operator id the coroutine exits at once and its hourly loop
(the only code that ever resets `usage_stats`) never runs. -/
def billing_notifier_start (adminChatId : Int) (stats : UsageStats) :
    NotifierState :=
  { running := adminChatId != 0, last_reported_date := stats.date }

/-- Ledger with its background reporter: the shared `usage_stats`, the
notifier's loop state, and the reports pushed to the operator. -/
structure LedgerWorld where
  stats : UsageStats
  notifier : NotifierState
  reports : List UsageStats

/-- One ledger event.  A `tick` with a running notifier and a changed date
sends the current totals as a report and zeroes all four counters for the
new day (also advancing `usage_stats["date"]` and `last_reported_date`);
every other tick, and every tick of a notifier that never started, leaves
the world unchanged. -/
def ledgerStep (w : LedgerWorld) (e : UsageEvent) : LedgerWorld :=
  match e with
  | .record meta => { w with stats := update_usage_from_response w.stats meta }
  | .tick today =>
    if w.notifier.running then
      if today ≠ w.notifier.last_reported_date then
        { stats := { date := today, requests := 0, input_tokens := 0,
                     output_tokens := 0, total_tokens := 0 }
          notifier := { running := true, last_reported_date := today }
          reports := w.reports ++ [w.stats] }
      else w
    else w

/-- Run the ledger from startup under a given operator id. -/
def runLedger (adminChatId : Int) (stats0 : UsageStats)
    (events : List UsageEvent) : LedgerWorld :=
  events.foldl ledgerStep ⟨stats0, billing_notifier_start adminChatId stats0, []⟩

/-- Requests contributed by the recorded events (a call with absent
metadata contributes nothing, as in `update_usage_from_response`). -/
def recordedRequests : List UsageEvent → Int
  | [] => 0
  | .record (some _) :: es => 1 + recordedRequests es
  | .record none :: es => recordedRequests es
  | .tick _ :: es => recordedRequests es

/-- Input tokens contributed by the recorded events. -/
def recordedInput : List UsageEvent → Int
  | [] => 0
  | .record (some m) :: es => metaInput m + recordedInput es
  | .record none :: es => recordedInput es
  | .tick _ :: es => recordedInput es

/-- Output tokens contributed by the recorded events. -/
def recordedOutput : List UsageEvent → Int
  | [] => 0
  | .record (some m) :: es => metaOutput m + recordedOutput es
  | .record none :: es => recordedOutput es
  | .tick _ :: es => recordedOutput es

/-- Total tokens contributed by the recorded events. -/
def recordedTotal : List UsageEvent → Int
  | [] => 0
  | .record (some m) :: es => metaTotal m + recordedTotal es
  | .record none :: es => recordedTotal es
  | .tick _ :: es => recordedTotal es

theorem ledger_accumulates (events : List UsageEvent) :
    ∀ (w : LedgerWorld), w.notifier.running = false →
      (events.foldl ledgerStep w).notifier = w.notifier ∧
      (events.foldl ledgerStep w).reports = w.reports ∧
      (events.foldl ledgerStep w).stats.date = w.stats.date ∧
      (events.foldl ledgerStep w).stats.requests
        = w.stats.requests + recordedRequests events ∧
      (events.foldl ledgerStep w).stats.input_tokens
        = w.stats.input_tokens + recordedInput events ∧
      (events.foldl ledgerStep w).stats.output_tokens
        = w.stats.output_tokens + recordedOutput events ∧
      (events.foldl ledgerStep w).stats.total_tokens
        = w.stats.total_tokens + recordedTotal events := by
  induction events with
  | nil =>
    intro w hrun
    simp [recordedRequests, recordedInput, recordedOutput, recordedTotal]
  | cons e es ih =>
    intro w hrun
    cases e with
    | record meta =>
      have hstep : ledgerStep w (.record meta)
          = { w with stats := update_usage_from_response w.stats meta } := rfl
      have hr := ih { w with stats := update_usage_from_response w.stats meta } hrun
      rw [List.foldl_cons, hstep]
      cases meta with
      | none =>
        simpa [update_usage_from_response, recordedRequests, recordedInput,
          recordedOutput, recordedTotal] using hr
      | some m =>
        refine ⟨hr.1, hr.2.1, ?_, ?_, ?_, ?_, ?_⟩
        · rw [hr.2.2.1]
          simp [update_usage_from_response]
        · rw [hr.2.2.2.1]
          simp only [update_usage_from_response, recordedRequests]
          omega
        · rw [hr.2.2.2.2.1]
          simp only [update_usage_from_response, recordedInput]
          omega
        · rw [hr.2.2.2.2.2.1]
          simp only [update_usage_from_response, recordedOutput]
          omega
        · rw [hr.2.2.2.2.2.2]
          simp only [update_usage_from_response, recordedTotal]
          omega
    | tick d =>
      have hstep : ledgerStep w (.tick d) = w := by
        simp [ledgerStep, hrun]
      have hr := ih w hrun
      rw [List.foldl_cons, hstep]
      simpa [recordedRequests, recordedInput, recordedOutput, recordedTotal]
        using hr

/-- C10: with the operator identity unset or zero (an empty environment
yields `ADMIN_CHAT_ID = 0`), the reporting loop exits immediately, no
report is ever pushed, and the ledger counters are never reset: across any
sequence of recorded calls and hourly ticks — calendar-day rollovers
included — each counter equals its initial value plus everything recorded
since startup, and the ledger date never changes. -/
theorem C10_no_admin_no_reset (stats0 : UsageStats) (events : List UsageEvent) :
    (loadConfig (fun _ => none)).ADMIN_CHAT_ID = 0 ∧
    (billing_notifier_start 0 stats0).running = false ∧
    (runLedger 0 stats0 events).reports = [] ∧
    (runLedger 0 stats0 events).stats.date = stats0.date ∧
    (runLedger 0 stats0 events).stats.requests
      = stats0.requests + recordedRequests events ∧
    (runLedger 0 stats0 events).stats.input_tokens
      = stats0.input_tokens + recordedInput events ∧
    (runLedger 0 stats0 events).stats.output_tokens
      = stats0.output_tokens + recordedOutput events ∧
    (runLedger 0 stats0 events).stats.total_tokens
      = stats0.total_tokens + recordedTotal events := by
  have h := ledger_accumulates events
    ⟨stats0, billing_notifier_start 0 stats0, []⟩ rfl
  exact ⟨rfl, rfl, h.2.1, h.2.2.1, h.2.2.2.1, h.2.2.2.2.1, h.2.2.2.2.2.1,
    h.2.2.2.2.2.2⟩
